import Mathlib

/-!
Verification of the GAS Executor core (`src/コード.js`, with the modular
variant `ScriptExecutor.js` = `src/unnamed/part_005`) against its
natural-language specification.

Shallow embedding conventions:
* The script-properties key-value store (`PropertiesService.getScriptProperties()`)
  is a `List (String × Blob)`.  A stored value is a JSON string; the embedding
  views it through `JSON.parse` as a `Blob`: either it parses to a key-data
  object (`Blob.json`) or parsing throws / yields a shape without the expected
  fields (`Blob.malformed`).  `JSON.stringify` of a key-data object is
  `Blob.json`.
* JavaScript values that may or may not be strings (the `apiKey` argument of
  `ApiKeyManager.validate`) are a `JSVal`; for a string, JS falsiness is
  emptiness.
* The dynamic construction and invocation of the script callable
  (`new Function(...)` followed by its call) is opaque to the embedding and is
  supplied as an oracle `run : String → RunOutcome`.
* Wall-clock timestamps (`new Date()`, `executionTime`) are non-logical; ISO
  timestamp strings are passed in as parameters where the code stores them,
  and the measured `executionTime` field is omitted.
* Strings are Lean `String`s; `s.substring(0, n)` is `strTake s n` and
  `s.length` is `String.length` (code points standing in for UTF-16 units;
  all inputs considered by the claims are ASCII-safe).
-/

namespace GasExec

/-! ### CONFIG (Config.js, コード.js lines 10-58) -/

def MAX_SCRIPT_LENGTH : Nat := 100000
def MAX_LOG_ENTRIES : Nat := 10000
def STATUS_SUCCESS : String := "success"
def STATUS_FAIL : String := "fail"
def ERR_NO_POST_DATA : String := "No post data received"
def ERR_INVALID_API_KEY : String := "APIキーが無効です"
def ERR_SCRIPT_EXECUTION : String := "実行エラーが発生しました"

/-! ### JS values and the key-value store -/

/-- A JavaScript value as far as `ApiKeyManager.validate` inspects it:
either a string, or some non-string value. -/
inductive JSVal where
  | str (s : String)
  | notStr
deriving DecidableEq

/-- The parsed form of one record stored by `ApiKeyManager.create`
(`keyData`, コード.js lines 151-157). -/
structure KeyData where
  apiKey : String
  identifier : String
  createdAt : String
  lastUsed : Option String
  usageCount : Nat
deriving DecidableEq, Repr

/-- A raw stored property value, viewed through `JSON.parse`: either it parses
to a key-data object or it is unparseable (parse throws). -/
inductive Blob where
  | json (d : KeyData)
  | malformed
deriving DecidableEq, Repr

/-- The script-properties store: an association list of property key to stored
value.  Keys are unique for stores produced by the code's own operations. -/
abbrev Store := List (String × Blob)

/-- `scriptProperties.getProperty(k)`: first entry with key `k`, if any. -/
def getProperty (st : Store) (k : String) : Option Blob :=
  (st.find? (fun e => e.1 = k)).map (·.2)

/-- `scriptProperties.setProperty(k, v)`: replace the value under `k`, or
append a fresh entry. -/
def setProperty (st : Store) (k : String) (v : Blob) : Store :=
  if st.any (fun e => e.1 = k) then
    st.map (fun e => if e.1 = k then (k, v) else e)
  else st ++ [(k, v)]

/-- `scriptProperties.getKeys()`. -/
def getKeys (st : Store) : List String := st.map (·.1)

/-! ### ApiKeyManager (コード.js lines 117-209) -/

/-- Result shape of `ApiKeyManager.validate`. -/
structure ValidateResult where
  valid : Bool
  identifier : Option String
deriving DecidableEq, Repr

/-- The `for (const key of keys)` loop of `validate` (コード.js lines 128-137):
parse each stored value; on parse failure log-and-continue; on a parsed value
whose `apiKey` matches, return its `identifier`. -/
def validateLoop (st : Store) (apiKey : String) : List String → ValidateResult
  | [] => ⟨false, none⟩
  | k :: rest =>
    match getProperty st k with
    | some (Blob.json d) =>
        if d.apiKey = apiKey then ⟨true, some d.identifier⟩
        else validateLoop st apiKey rest
    | _ => validateLoop st apiKey rest

/-- `ApiKeyManager.validate` (コード.js lines 122-139).  A non-string or empty
(falsy) argument is rejected up front. -/
def validate (st : Store) (apiKey : JSVal) : ValidateResult :=
  match apiKey with
  | .notStr => ⟨false, none⟩
  | .str s => if s = "" then ⟨false, none⟩ else validateLoop st s (getKeys st)

/-- Outcome of `ApiKeyManager.create`: the returned key, or the thrown error
message. -/
inductive CreateResult where
  | ok (apiKey : String)
  | err (msg : String)
deriving DecidableEq, Repr

/-- `ApiKeyManager.create` (コード.js lines 141-161).  `uuid` stands for
`Utilities.getUuid()` and `nowIso` for `new Date().toISOString()`.  The
duplicate check `if (getProperty(identifier))` is truthy exactly when a
property exists, stored JSON strings being non-empty.  The pair carries the
store after the call; on a throw the store is untouched. -/
def create (st : Store) (identifier uuid nowIso : String) :
    CreateResult × Store :=
  if identifier = "" then
    (.err "Identifier is required and must be a string", st)
  else
    match getProperty st identifier with
    | some _ =>
        (.err ("Identifier \x27" ++ identifier ++ "\x27 already exists"), st)
    | none =>
        let keyData : KeyData :=
          { apiKey := uuid, identifier := identifier, createdAt := nowIso
            lastUsed := none, usageCount := 0 }
        (.ok uuid, setProperty st identifier (Blob.json keyData))

/-- `ApiKeyManager.updateUsage` (コード.js lines 196-208): read-modify-write of
`lastUsed`/`usageCount`; a missing or unparseable record leaves the store
unchanged (the parse error is caught). -/
def updateUsage (st : Store) (identifier nowIso : String) : Store :=
  match getProperty st identifier with
  | some (Blob.json d) =>
      setProperty st identifier
        (Blob.json { d with lastUsed := some nowIso, usageCount := d.usageCount + 1 })
  | _ => st

/-! ### Logger (コード.js lines 215-350) -/

/-- One data row of the Log sheet, below the header.  Columns (コード.js line
17): title, script, result, status, timestamp, identifier; the timestamp cell
(`new Date()`) is non-logical and omitted. -/
structure LogRow where
  title : String
  script : String
  result : String
  status : String
  identifier : String
deriving DecidableEq, Repr

/-- The argument object of `Logger.log`.  `result` carries the already
stringified result (`typeof result === 'object' ? JSON.stringify(result) :
String(result)`, コード.js line 263 — stringification itself is opaque to the
embedding, its output string is what enters here). -/
structure LogEntry where
  title : String
  script : String
  result : String
  success : Bool
  identifier : String
deriving DecidableEq, Repr

/-- `s.substring(0, n)`. -/
def strTake (s : String) (n : Nat) : String := String.mk (s.data.take n)

/-- The truncation applied to the script and result fields (コード.js lines
265-266): over 1000 characters, keep 997 and append an ellipsis marker. -/
def truncateField (s : String) : String :=
  if s.length > 1000 then strTake s 997 ++ "..." else s

/-- The row written by `Logger.log` (コード.js lines 261-277): falsy `title`
falls back to `"Untitled"`, falsy `identifier` to `"Unknown"`, the status cell
is `success`/`fail`, and the long fields are truncated. -/
def logRowOf (e : LogEntry) : LogRow :=
  { title := if e.title = "" then "Untitled" else e.title
    script := truncateField e.script
    result := truncateField e.result
    status := if e.success then STATUS_SUCCESS else STATUS_FAIL
    identifier := if e.identifier = "" then "Unknown" else e.identifier }

/-- `Logger.trimLogs` (コード.js lines 316-322) acting on the data rows below
the header.  `lastRow = rows.length + 1`; when it exceeds
`MAX_LOG_ENTRIES + 1`, `deleteRows(MAX_LOG_ENTRIES + 2, lastRow -
MAX_LOG_ENTRIES - 1)` removes every data row after the first
`MAX_LOG_ENTRIES`. -/
def trimLogs (rows : List LogRow) : List LogRow :=
  if rows.length + 1 > MAX_LOG_ENTRIES + 1 then rows.take MAX_LOG_ENTRIES
  else rows

/-- `Logger.log` (コード.js lines 255-284): `insertRowBefore(2)` puts the new
row first (most-recent-first), then `trimLogs` enforces the cap.  The model
assumes a working sheet context (the silent catch of sheet failures is not
taken). -/
def loggerLog (e : LogEntry) (rows : List LogRow) : List LogRow :=
  trimLogs (logRowOf e :: rows)

/-- `x.toFixed(2)` applied to the percentage `success * 100 / total`
(コード.js line 347), with the JS number modeled as the exact rational: the
nearest two-decimal value, ties rounded up. -/
def toFixed2Pct (success total : Nat) : String :=
  let n := (2 * (success * 10000) + total) / (2 * total)
  toString (n / 100) ++ "." ++
    (if n % 100 < 10 then "0" ++ toString (n % 100) else toString (n % 100))

/-- Result shape of `Logger.getStats`. -/
structure Stats where
  total : Nat
  success : Nat
  fail : Nat
  successRate : String
deriving DecidableEq, Repr

/-- `Logger.getStats` (コード.js lines 324-349) acting on the data rows below
the header (`values = header :: rows`, the loop starts at index 1, and
`values.length - 1 = rows.length`). -/
def getStats (rows : List LogRow) : Stats :=
  let counts := rows.foldl
    (fun (acc : Nat × Nat) r =>
      if r.status = STATUS_SUCCESS then (acc.1 + 1, acc.2)
      else if r.status = STATUS_FAIL then (acc.1, acc.2 + 1)
      else acc)
    (0, 0)
  { total := rows.length
    success := counts.1
    fail := counts.2
    successRate :=
      if rows.length > 0 then toFixed2Pct counts.1 rows.length ++ "%"
      else "0%" }

/-! ### ScriptExecutor (コード.js lines 356-426; modular variant
`ScriptExecutor.js` = src/unnamed/part_005 lines 4-144) -/

/-- Classification used by `formatError` (コード.js lines 396-406). -/
inductive ErrKind where
  | synErr
  | refErr
  | typErr
  | otherErr (name : String)
deriving DecidableEq, Repr

/-- A thrown JS error as `formatError` inspects it. -/
structure JSError where
  kind : ErrKind
  message : String
deriving DecidableEq, Repr

/-- `ScriptExecutor.formatError`. -/
def formatError (e : JSError) : String :=
  match e.kind with
  | .synErr => "Syntax Error: " ++ e.message
  | .refErr => "Reference Error: " ++ e.message
  | .typErr => "Type Error: " ++ e.message
  | .otherErr name => (if name = "" then "Error" else name) ++ ": " ++ e.message

/-- Outcome of invoking the dynamically built callable on the script text:
the script returns a value (its stringified form recorded), or throws. -/
inductive RunOutcome where
  | value (result : String)
  | thrown (e : JSError)
deriving DecidableEq, Repr

/-- `ScriptExecutor.execute`'s result object (コード.js lines 370-382), minus
the non-logical `executionTime`. -/
structure ExecutionResult where
  success : Bool
  result : Option String
  error : Option String
deriving DecidableEq, Repr

/-! The denylist regexes of the modular `validateScript`
(src/unnamed/part_005 lines 62-69).  Each keyword pattern has the shape
`\bKW\s*C`: a word boundary (start of string or a preceding non-word
character — the keyword begins with a word character), the literal keyword,
any JS whitespace, then a closing character.  `\.__proto__` is a literal
substring. -/

/-- JS regex `\w`: `[A-Za-z0-9_]`. -/
def isWordChar (c : Char) : Bool :=
  c.isUpper || c.isLower || c.isDigit || c == '_'

/-- JS regex `\s`: the ECMAScript WhiteSpace and LineTerminator sets. -/
def isJsSpace (c : Char) : Bool :=
  c == '\t' || c == '\n' || c == '\x0b' || c == '\x0c' || c == '\r' ||
  c == ' ' || c == '\u00a0' || c == '\u1680' ||
  (decide (0x2000 ≤ c.toNat) && decide (c.toNat ≤ 0x200a)) ||
  c == '\u2028' || c == '\u2029' || c == '\u202f' || c == '\u205f' ||
  c == '\u3000' || c == '\ufeff'

/-- Does `l` start with `pat`? -/
def startsWithChars : List Char → List Char → Bool
  | [], _ => true
  | _ :: _, [] => false
  | p :: ps, c :: cs => p == c && startsWithChars ps cs

/-- After the keyword: `\s*` then the closing character. -/
def spacesThenChar (close : Char) : List Char → Bool
  | [] => false
  | c :: cs => if isJsSpace c then spacesThenChar close cs else c == close

/-- Scan for a match of `\bKW\s*C` anywhere, tracking the previous character
for the word-boundary test. -/
def kwPatAux (kw : List Char) (close : Char) : Option Char → List Char → Bool
  | _, [] => false
  | prev, c :: cs =>
    ((match prev with
      | none => true
      | some p => !isWordChar p) &&
     startsWithChars kw (c :: cs) &&
     spacesThenChar close (List.drop kw.length (c :: cs)))
    || kwPatAux kw close (some c) cs

/-- `new RegExp("\\bKW\\s*C").test(s)` for a keyword starting with a word
character. -/
def kwPat (kw : String) (close : Char) (s : String) : Bool :=
  kwPatAux kw.data close none s.data

/-- Does `l` contain `pat` as a contiguous run? -/
def hasSubstr (pat : List Char) : List Char → Bool
  | [] => startsWithChars pat []
  | c :: cs => startsWithChars pat (c :: cs) || hasSubstr pat cs

/-- The `dangerousPatterns` loop of the modular `validateScript`
(src/unnamed/part_005 lines 62-75): the source text of the first matching
pattern, if any. -/
def findDangerous (s : String) : Option String :=
  if kwPat "eval" '(' s then some "/\\beval\\s*\\(/"
  else if kwPat "Function" '(' s then some "/\\bFunction\\s*\\(/"
  else if kwPat "import" '(' s then some "/\\bimport\\s*\\(/"
  else if kwPat "require" '(' s then some "/\\brequire\\s*\\(/"
  else if hasSubstr ".__proto__".data s.data then some "/\\.__proto__/"
  else if kwPat "constructor" '[' s then some "/\\bconstructor\\s*\\[/"
  else none

/-- `ScriptExecutor.validateScript` of the deployed combined file
(コード.js lines 386-394): only the non-empty and length checks.  The thrown
error, if any.  (All claims quantify over string scripts; the
`typeof script !== 'string'` rejection coincides with falsiness there.) -/
def validateScript (s : String) : Option JSError :=
  if s = "" then some ⟨.otherErr "Error", "Script must be a non-empty string"⟩
  else if s.length > MAX_SCRIPT_LENGTH then
    some ⟨.otherErr "Error", "Script exceeds maximum length of 100000 characters"⟩
  else none

/-- `ScriptExecutor.validateScript` of the modular variant
(src/unnamed/part_005 lines 52-76): the combined file's checks plus the
denylist. -/
def validateScriptModular (s : String) : Option JSError :=
  if s = "" then some ⟨.otherErr "Error", "Script must be a non-empty string"⟩
  else if s.length > MAX_SCRIPT_LENGTH then
    some ⟨.otherErr "Error", "Script exceeds maximum length of 100000 characters"⟩
  else
    match findDangerous s with
    | some pat =>
        some ⟨.otherErr "Error",
          "Script contains potentially dangerous pattern: " ++ pat⟩
    | none => none

/-- `ScriptExecutor.execute` of the combined file (コード.js lines 357-384):
validate, then build and invoke the callable (the oracle `run`); a throw
anywhere is formatted into a failure result. -/
def execute (run : String → RunOutcome) (s : String) : ExecutionResult :=
  match validateScript s with
  | some e => { success := false, result := none, error := some (formatError e) }
  | none =>
    match run s with
    | .value v => { success := true, result := some v, error := none }
    | .thrown e => { success := false, result := none, error := some (formatError e) }

/-- `ScriptExecutor.execute` of the modular variant (src/unnamed/part_005
lines 11-45). -/
def executeModular (run : String → RunOutcome) (s : String) : ExecutionResult :=
  match validateScriptModular s with
  | some e => { success := false, result := none, error := some (formatError e) }
  | none =>
    match run s with
    | .value v => { success := true, result := some v, error := none }
    | .thrown e => { success := false, result := none, error := some (formatError e) }

/-! ### ResponseBuilder and the request handler (コード.js lines 64-111 and
437-518) -/

/-- The JSON envelope a handler invocation returns: `ResponseBuilder.success`
(no `statusCode` field) or `ResponseBuilder.error` (with one).  The
`timestamp` field and free-form metadata/details are non-logical and
omitted. -/
inductive Response where
  | resultOf (result : String)
  | errorOf (msg : String) (statusCode : Nat)
deriving DecidableEq, Repr

/-- `ResponseBuilder.unauthorized` (コード.js lines 98-100). -/
def unauthorizedResponse : Response := .errorOf ERR_INVALID_API_KEY 401

/-- The inbound event, as far as `parseRequest` inspects it.  `parsed` is a
body that parsed as JSON; an absent or falsy field is the empty string (the
claims quantify over string fields). -/
inductive PostInput where
  | noData
  | badJson (msg : String)
  | parsed (title script apiKey : String)
deriving DecidableEq, Repr

/-- Outcome of `parseRequest`. -/
inductive ParseResult where
  | ok (title script apiKey : String)
  | err (msg : String)
deriving DecidableEq, Repr

/-- The aggregated `validationErrors` list of `parseRequest` (コード.js lines
499-502), in source order: script, title, apiKey. -/
def missingFieldMsgs (title script apiKey : String) : List String :=
  (if script = "" then ["Script is required"] else []) ++
  (if title = "" then ["Title is required"] else []) ++
  (if apiKey = "" then ["API key is required"] else [])

/-- `parseRequest` (コード.js lines 491-518). -/
def parseRequest : PostInput → ParseResult
  | .noData => .err ERR_NO_POST_DATA
  | .badJson m => .err ("Invalid JSON: " ++ m)
  | .parsed title script apiKey =>
    let msgs := missingFieldMsgs title script apiKey
    if msgs.length > 0 then .err (String.intercalate ", " msgs)
    else .ok title script apiKey

/-- The mutable state doPost touches: the key store and the Log sheet's data
rows. -/
structure SysState where
  props : Store
  logRows : List LogRow
deriving DecidableEq, Repr

/-- `doPost` (コード.js lines 437-489).  `run` is the opaque
construct-and-invoke step of `ScriptExecutor.execute`; `nowIso` is the
timestamp `updateUsage` stores.  Returns the response and the state after the
call. -/
def doPost (run : String → RunOutcome) (nowIso : String) (inp : PostInput)
    (st : SysState) : Response × SysState :=
  match parseRequest inp with
  | .err msg => (.errorOf msg 400, st)
  | .ok title script apiKey =>
    let v := validate st.props (.str apiKey)
    if v.valid = false then
      let entry : LogEntry :=
        { title := if title = "" then "Unauthorized" else title
          script := script
          result := ERR_INVALID_API_KEY
          success := false
          identifier := "Unknown" }
      (unauthorizedResponse, ⟨st.props, loggerLog entry st.logRows⟩)
    else
      let props1 := updateUsage st.props (v.identifier.getD "") nowIso
      let ex := execute run script
      let entry : LogEntry :=
        { title := title
          script := script
          result := if ex.success then ex.result.getD "" else ex.error.getD ""
          success := ex.success
          identifier := v.identifier.getD "" }
      let rows1 := loggerLog entry st.logRows
      if ex.success then
        (.resultOf (ex.result.getD ""), ⟨props1, rows1⟩)
      else
        (.errorOf (ERR_SCRIPT_EXECUTION ++ ": " ++ ex.error.getD "") 400,
         ⟨props1, rows1⟩)

/-! ### Derived vocabulary used by the verification -/

/-- A batch of `Logger.log` calls, oldest first. -/
def logMany (es : List LogEntry) (rows : List LogRow) : List LogRow :=
  es.foldl (fun r e => loggerLog e r) rows

/-- The `i`-th distinguishable log entry of the cap experiment: entries are
told apart by the length of the identifier field. -/
def numEntry (i : Nat) : LogEntry :=
  { title := "t", script := "s", result := "r", success := true
    identifier := String.mk (List.replicate (i + 1) 'a') }

/-- The sheet row the `i`-th experiment entry produces. -/
def c6Row (i : Nat) : LogRow := logRowOf (numEntry i)

/-- A success row and a fail row as `Logger.log` writes them. -/
def successRow : LogRow :=
  { title := "t", script := "s", result := "r", status := STATUS_SUCCESS
    identifier := "i" }

def failRow : LogRow :=
  { title := "t", script := "s", result := "r", status := STATUS_FAIL
    identifier := "i" }

/-- A batch of `create` calls, each op an (identifier, uuid) pair, run against
the empty store; a thrown create leaves the store as it was.  The
`createdAt` timestamp is irrelevant to validation and fixed. -/
def createdFrom (ops : List (String × String)) : Store :=
  ops.foldl (fun st p => (create st p.1 p.2 "t0").2) []

/-- The uuids handed to a batch of creates are non-empty and pairwise
distinct, as `Utilities.getUuid()` guarantees. -/
def GoodOps (ops : List (String × String)) : Prop :=
  (∀ p ∈ ops, p.2 ≠ "") ∧ (ops.map Prod.snd).Nodup

/-- The secrets of the parseable records of a store. -/
def secretsOf (st : Store) : List String :=
  st.filterMap (fun e => match e.2 with | Blob.json d => some d.apiKey | _ => none)

/-- The store invariant `create` maintains: keys are unique, every record
parses to a key-data object whose `identifier` echoes its key and whose
secret is non-empty, and secrets are pairwise distinct. -/
def StoreWF (st : Store) : Prop :=
  (st.map Prod.fst).Nodup ∧
  (∀ e ∈ st, ∃ d, e.2 = Blob.json d ∧ d.identifier = e.1 ∧ d.apiKey ≠ "") ∧
  (secretsOf st).Nodup

/-- The validation scan passes over key `k` without returning: its lookup
either does not parse or parses to a record whose secret differs from `s`. -/
def SkipKey (st : Store) (s k : String) : Prop :=
  ∀ d : KeyData, getProperty st k = some (Blob.json d) → d.apiKey ≠ s

/-! ## Theorems -/

/-! ### Shared auxiliary lemmas -/

theorem strLength_mk (l : List Char) : (String.mk l).length = l.length := rfl

theorem strLength_append (s t : String) : (s ++ t).length = s.length + t.length :=
  String.length_append s t

theorem truncateField_of_long (s : String) (h : s.length > 1000) :
    truncateField s = strTake s 997 ++ "..." := by
  simp [truncateField, h]

theorem truncateField_length_of_long (s : String) (h : s.length > 1000) :
    (truncateField s).length = 1000 := by
  rw [truncateField_of_long s h, strLength_append, strTake, strLength_mk,
    List.length_take]
  have hd : s.data.length = s.length := rfl
  have h3 : ("..." : String).length = 3 := rfl
  rw [hd, h3]
  omega

theorem truncateField_of_short (s : String) (h : s.length ≤ 1000) :
    truncateField s = s := by
  have hn : ¬ s.length > 1000 := by omega
  simp [truncateField, hn]

theorem loggerLog_eq_take (e : LogEntry) (rows : List LogRow) :
    loggerLog e rows = (logRowOf e :: rows).take MAX_LOG_ENTRIES := by
  unfold loggerLog trimLogs
  split
  · rfl
  · next h =>
    rw [List.take_of_length_le]
    simp only [List.length_cons] at h ⊢
    omega

theorem loggerLog_head (e : LogEntry) (rows : List LogRow) :
    (loggerLog e rows).head? = some (logRowOf e) := by
  rw [loggerLog_eq_take]
  have h10000 : MAX_LOG_ENTRIES = 9999 + 1 := rfl
  rw [h10000, List.take_succ_cons]
  rfl

/-! ### C7: truncation of long script/result fields -/

/-- C7: a log-entry script or result field longer than 1000 characters is
stored as its first 997 characters followed by "..." — exactly 1000
characters ending in the ellipsis marker — while a field of at most 1000
characters is stored unchanged; the stored row is the one `Logger.log`
prepends. -/
theorem c7_field_truncation (e : LogEntry) (rows : List LogRow) :
    ((e.script.length > 1000 →
        (logRowOf e).script = strTake e.script 997 ++ "..." ∧
        (logRowOf e).script.length = 1000 ∧
        ∃ pre, (logRowOf e).script = pre ++ "...") ∧
      (e.script.length ≤ 1000 → (logRowOf e).script = e.script)) ∧
    ((e.result.length > 1000 →
        (logRowOf e).result = strTake e.result 997 ++ "..." ∧
        (logRowOf e).result.length = 1000 ∧
        ∃ pre, (logRowOf e).result = pre ++ "...") ∧
      (e.result.length ≤ 1000 → (logRowOf e).result = e.result)) ∧
    (loggerLog e rows).head? = some (logRowOf e) := by
  refine ⟨⟨fun h => ?_, fun h => ?_⟩, ⟨fun h => ?_, fun h => ?_⟩, loggerLog_head e rows⟩
  · exact ⟨truncateField_of_long _ h, truncateField_length_of_long _ h,
      strTake e.script 997, truncateField_of_long _ h⟩
  · exact truncateField_of_short _ h
  · exact ⟨truncateField_of_long _ h, truncateField_length_of_long _ h,
      strTake e.result 997, truncateField_of_long _ h⟩
  · exact truncateField_of_short _ h

/-- Witness for C7 at a 1500-character script. -/
theorem c7_field_truncation_witness :
    (String.mk (List.replicate 1500 'a')).length > 1000 ∧
    (logRowOf { title := "t", script := String.mk (List.replicate 1500 'a')
                result := "r", success := true, identifier := "i" }).script.length = 1000 ∧
    ∃ pre,
      (logRowOf { title := "t", script := String.mk (List.replicate 1500 'a')
                  result := "r", success := true, identifier := "i" }).script = pre ++ "..." := by
  have h : (String.mk (List.replicate 1500 'a')).length > 1000 := by
    rw [strLength_mk, List.length_replicate]; omega
  have hc := (c7_field_truncation
    { title := "t", script := String.mk (List.replicate 1500 'a')
      result := "r", success := true, identifier := "i" } []).1.1 h
  exact ⟨h, hc.2.1, hc.2.2⟩

/-! ### C8: the 100,000-character script length ceiling is exact -/

/-- C8: `execute` rejects a script of exactly 100,001 characters with the
length-specific error message (success = false, independent of the runner),
and length validation passes for a non-empty script of exactly 100,000
characters. -/
theorem c8_length_ceiling :
    (∀ (s : String) (run : String → RunOutcome), s.length = 100001 →
      execute run s =
        { success := false, result := none
          error := some "Error: Script exceeds maximum length of 100000 characters" }) ∧
    (∀ s : String, s ≠ "" → s.length = 100000 → validateScript s = none) := by
  constructor
  · intro s run h
    have hne : s ≠ "" := by
      intro he; rw [he] at h; simp [String.length] at h
    have hgt : s.length > MAX_SCRIPT_LENGTH := by rw [h]; decide
    simp [execute, validateScript, hne, hgt, formatError]
  · intro s hne h
    have hle : ¬ s.length > MAX_SCRIPT_LENGTH := by rw [h]; decide
    simp [validateScript, hne, hle]

/-- Witness for C8 at concrete scripts of 100,001 and 100,000 characters. -/
theorem c8_length_ceiling_witness :
    (String.mk (List.replicate 100001 'a')).length = 100001 ∧
    execute (fun _ => RunOutcome.value "x") (String.mk (List.replicate 100001 'a')) =
      { success := false, result := none
        error := some "Error: Script exceeds maximum length of 100000 characters" } ∧
    (String.mk (List.replicate 100000 'a')).length = 100000 ∧
    validateScript (String.mk (List.replicate 100000 'a')) = none := by
  have h1 : (String.mk (List.replicate 100001 'a')).length = 100001 := by
    rw [strLength_mk, List.length_replicate]
  have h2 : (String.mk (List.replicate 100000 'a')).length = 100000 := by
    rw [strLength_mk, List.length_replicate]
  have hne : String.mk (List.replicate 100000 'a') ≠ "" := by
    intro he
    have := congrArg String.length he
    rw [h2] at this
    simp [String.length] at this
  exact ⟨h1, c8_length_ceiling.1 _ _ h1, h2, c8_length_ceiling.2 _ hne h2⟩

/-! ### C9: log statistics -/

theorem statsFold (rows : List LogRow) (a b : Nat) :
    rows.foldl
      (fun (acc : Nat × Nat) r =>
        if r.status = STATUS_SUCCESS then (acc.1 + 1, acc.2)
        else if r.status = STATUS_FAIL then (acc.1, acc.2 + 1)
        else acc) (a, b) =
    (a + (rows.filter (fun r => r.status = STATUS_SUCCESS)).length,
     b + (rows.filter (fun r => r.status = STATUS_FAIL)).length) := by
  induction rows generalizing a b with
  | nil => simp
  | cons r rs ih =>
    rw [List.foldl_cons]
    by_cases h1 : r.status = STATUS_SUCCESS
    · have h2 : ¬ r.status = STATUS_FAIL := by
        rw [h1]; decide
      simp only [h1, List.filter_cons]
      simp [STATUS_SUCCESS, STATUS_FAIL] at ih ⊢
      rw [ih]
      simp [Prod.ext_iff]
      omega
    · by_cases h2 : r.status = STATUS_FAIL
      · simp only [h2, List.filter_cons]
        simp [h1, STATUS_SUCCESS, STATUS_FAIL] at ih ⊢
        rw [ih]
        simp [Prod.ext_iff]
        omega
      · simp only [List.filter_cons]
        simp [h1, h2]
        rw [ih]

/-- C9: `getStats` of an empty log is `{0, 0, 0, "0%"}`; of three success
rows and one fail row it is `{4, 3, 1, "75.00%"}`; in general `total` counts
all rows, `success`/`fail` count rows by status, and for a non-empty log
`successRate` is the success percentage formatted to two decimals followed by
"%". -/
theorem c9_stats_shape :
    getStats [] = ⟨0, 0, 0, "0%"⟩ ∧
    getStats [successRow, successRow, successRow, failRow] = ⟨4, 3, 1, "75.00%"⟩ ∧
    ∀ rows : List LogRow,
      (getStats rows).total = rows.length ∧
      (getStats rows).success = (rows.filter (fun r => r.status = STATUS_SUCCESS)).length ∧
      (getStats rows).fail = (rows.filter (fun r => r.status = STATUS_FAIL)).length ∧
      (rows ≠ [] →
        (getStats rows).successRate =
          toFixed2Pct ((rows.filter (fun r => r.status = STATUS_SUCCESS)).length)
            rows.length ++ "%") := by
  refine ⟨by decide, by decide, fun rows => ?_⟩
  unfold getStats
  rw [statsFold]
  refine ⟨rfl, by simp, by simp, fun hne => ?_⟩
  have hpos : rows.length > 0 := List.length_pos.mpr hne
  simp [hpos]

/-- Witness for C9's general clause at a one-row log. -/
theorem c9_stats_shape_witness :
    ([failRow] : List LogRow) ≠ [] ∧
    (getStats [failRow]).successRate =
      toFixed2Pct (([failRow].filter (fun r => r.status = STATUS_SUCCESS)).length)
        [failRow].length ++ "%" := by
  exact ⟨by decide, (c9_stats_shape.2.2 [failRow]).2.2.2 (by decide)⟩

/-! ### C5: aggregated missing-field errors, default status 400, no audit -/

/-- C5: a parsed request body missing any of title/script/apiKey gets a 400
response (the literal default status code) whose message lists every missing
field, and the system state — key store and audit log alike — is unchanged. -/
theorem c5_missing_fields (run : String → RunOutcome)
    (nowIso title script apiKey : String) (st : SysState)
    (h : title = "" ∨ script = "" ∨ apiKey = "") :
    doPost run nowIso (.parsed title script apiKey) st =
      (.errorOf (String.intercalate ", " (missingFieldMsgs title script apiKey)) 400,
       st) := by
  have hlen : (missingFieldMsgs title script apiKey).length > 0 := by
    rcases h with h | h | h <;> simp [missingFieldMsgs, h]
  simp [doPost, parseRequest, hlen]

/-- Witness for C5: two missing fields are both listed, store and log are
untouched. -/
theorem c5_missing_fields_witness :
    (("" : String) = "" ∨ ("" : String) = "" ∨ ("k" : String) = "") ∧
    doPost (fun _ => RunOutcome.value "x") "t0" (.parsed "" "" "k") ⟨[], []⟩ =
      (.errorOf "Script is required, Title is required" 400, ⟨[], []⟩) := by
  have hmsg : String.intercalate ", " (missingFieldMsgs "" "" "k") =
      "Script is required, Title is required" := by decide
  have hc := c5_missing_fields (fun _ => RunOutcome.value "x") "t0" "" "" "k"
    ⟨[], []⟩ (Or.inl rfl)
  rw [hmsg] at hc
  exact ⟨Or.inl rfl, hc⟩

/-! ### C2: authentication failure — audit sentinel and 401 response -/

/-- C2 counterexample: the identifier sentinel the code writes on an
authentication failure is the capitalized "Unknown", not the claimed
lowercase "unknown". -/
theorem c2_sentinel_counterexample :
    (doPost (fun _ => RunOutcome.value "x") "t0" (.parsed "T" "return 1" "badkey")
        ⟨[], []⟩).2.logRows.map (fun r => r.identifier) = ["Unknown"] ∧
    ("Unknown" : String) ≠ "unknown" := by
  exact ⟨by decide, by decide⟩

/-- C2 (amended): when the body parses but the key fails validation, doPost
writes exactly one new log entry at the head of the log — identifier
sentinel "Unknown", status "fail", title taken from the request (the
"Unauthorized" fallback only covers an absent title, which parsing already
excludes) — and responds 401 with the fixed invalid-key message. -/
theorem c2_unauthorized_behavior (run : String → RunOutcome)
    (nowIso title script apiKey : String) (st : SysState)
    (ht : title ≠ "") (hs : script ≠ "") (hk : apiKey ≠ "")
    (hv : (validate st.props (.str apiKey)).valid = false) :
    doPost run nowIso (.parsed title script apiKey) st =
      (.errorOf ERR_INVALID_API_KEY 401,
        ⟨st.props,
         loggerLog
           { title := title, script := script, result := ERR_INVALID_API_KEY
             success := false, identifier := "Unknown" } st.logRows⟩) ∧
    (doPost run nowIso (.parsed title script apiKey) st).2.logRows.head? =
      some { title := title, script := truncateField script
             result := ERR_INVALID_API_KEY, status := STATUS_FAIL
             identifier := "Unknown" } ∧
    (doPost run nowIso (.parsed title script apiKey) st).2.logRows.length =
      min MAX_LOG_ENTRIES (st.logRows.length + 1) := by
  have hparse : parseRequest (.parsed title script apiKey) =
      .ok title script apiKey := by
    simp [parseRequest, missingFieldMsgs, ht, hs, hk]
  have hmain : doPost run nowIso (.parsed title script apiKey) st =
      (.errorOf ERR_INVALID_API_KEY 401,
        ⟨st.props,
         loggerLog
           { title := title, script := script, result := ERR_INVALID_API_KEY
             success := false, identifier := "Unknown" } st.logRows⟩) := by
    simp [doPost, hparse, hv, unauthorizedResponse, ht]
  refine ⟨hmain, ?_, ?_⟩
  · rw [hmain]
    rw [loggerLog_head]
    have hres : truncateField ERR_INVALID_API_KEY = ERR_INVALID_API_KEY :=
      truncateField_of_short _ (by decide)
    simp [logRowOf, ht, hres]
  · rw [hmain]
    simp only [loggerLog_eq_take, List.length_take, List.length_cons]

/-- Witness for C2's amended theorem at a concrete unauthorized request. -/
theorem c2_unauthorized_behavior_witness :
    (validate ([] : Store) (.str "badkey")).valid = false ∧
    doPost (fun _ => RunOutcome.value "x") "t0" (.parsed "T" "return 1" "badkey")
        ⟨[], []⟩ =
      (.errorOf ERR_INVALID_API_KEY 401,
        ⟨[],
         loggerLog
           { title := "T", script := "return 1", result := ERR_INVALID_API_KEY
             success := false, identifier := "Unknown" } []⟩) := by
  exact ⟨by decide,
    (c2_unauthorized_behavior (fun _ => RunOutcome.value "x") "t0" "T" "return 1"
      "badkey" ⟨[], []⟩ (by decide) (by decide) (by decide) (by decide)).1⟩

/-! ### C1: the script denylist -/

/-- C1 counterexample: the deployed combined implementation (コード.js)
performs no denylist check — a script matching the denylist passes validation
and is executed, returning the runner's success. -/
theorem c1_denylist_counterexample :
    (findDangerous "eval(1+1)").isSome = true ∧
    execute (fun _ => RunOutcome.value "ran") "eval(1+1)" =
      { success := true, result := some "ran", error := none } := by
  exact ⟨by decide, by decide⟩

/-- C1 (amended): in the modular ScriptExecutor (src/unnamed/part_005), a
script matching the denylist always yields a failure result with an error and
no result value, and is never executed — the outcome does not depend on the
runner.  The combined コード.js variant omits this check. -/
theorem c1_modular_denylist_rejects (s : String) (run : String → RunOutcome)
    (h : (findDangerous s).isSome = true) :
    (executeModular run s).success = false ∧
    (executeModular run s).error.isSome = true ∧
    (executeModular run s).result = none ∧
    ∀ run2 : String → RunOutcome, executeModular run s = executeModular run2 s := by
  obtain ⟨pat, hp⟩ := Option.isSome_iff_exists.mp h
  have hval : ∃ e, validateScriptModular s = some e := by
    unfold validateScriptModular
    by_cases h0 : s = ""
    · exact ⟨⟨.otherErr "Error", "Script must be a non-empty string"⟩, by simp [h0]⟩
    · by_cases h1 : s.length > MAX_SCRIPT_LENGTH
      · exact ⟨⟨.otherErr "Error", "Script exceeds maximum length of 100000 characters"⟩,
          by simp [h0, h1]⟩
      · exact ⟨⟨.otherErr "Error",
            "Script contains potentially dangerous pattern: " ++ pat⟩,
          by simp [h0, h1, hp]⟩
  obtain ⟨e, he⟩ := hval
  refine ⟨?_, ?_, ?_, fun run2 => ?_⟩ <;> simp [executeModular, he]

/-- Witness for C1's amended theorem at a denylist-matching script. -/
theorem c1_modular_denylist_rejects_witness :
    (findDangerous "eval(1+1)").isSome = true ∧
    (executeModular (fun _ => RunOutcome.value "ran") "eval(1+1)").success = false := by
  exact ⟨by decide,
    (c1_modular_denylist_rejects "eval(1+1)" (fun _ => RunOutcome.value "ran")
      (by decide)).1⟩

/-! ### C6: the 10,000-entry audit-log cap -/

theorem take_append_take {α : Type} (A B : List α) (n : Nat) :
    (A ++ B.take n).take n = (A ++ B).take n := by
  rw [List.take_append_eq_append_take, List.take_append_eq_append_take,
    List.take_take]
  have hmin : (n - A.length) ⊓ n = n - A.length :=
    Nat.min_eq_left (Nat.sub_le _ _)
  rw [hmin]

theorem logMany_eq (es : List LogEntry) (rows : List LogRow)
    (h : rows.length ≤ MAX_LOG_ENTRIES) :
    logMany es rows = ((es.map logRowOf).reverse ++ rows).take MAX_LOG_ENTRIES := by
  induction es generalizing rows with
  | nil =>
    simp only [logMany, List.foldl_nil, List.map_nil, List.reverse_nil,
      List.nil_append]
    rw [List.take_of_length_le h]
  | cons e es ih =>
    have hstep : logMany (e :: es) rows = logMany es (loggerLog e rows) := rfl
    have h1 : (loggerLog e rows).length ≤ MAX_LOG_ENTRIES := by
      rw [loggerLog_eq_take, List.length_take]
      exact Nat.min_le_left _ _
    rw [hstep, ih _ h1, loggerLog_eq_take, take_append_take]
    rw [List.map_cons, List.reverse_cons, List.append_assoc,
      List.singleton_append]

theorem c6Row_identifier (i : Nat) :
    (c6Row i).identifier = String.mk (List.replicate (i + 1) 'a') := by
  have hne : String.mk (List.replicate (i + 1) 'a') ≠ "" := by
    intro hcon
    have hlen := congrArg String.length hcon
    rw [strLength_mk, List.length_replicate] at hlen
    have hz : ("" : String).length = 0 := rfl
    rw [hz] at hlen
    omega
  simp [c6Row, logRowOf, numEntry, hne]

/-- C6: after any append the audit log holds at most 10,000 entries; after
appending MAX+1 distinguishable entries to an empty log, exactly MAX entries
remain, most-recent-first (entries MAX, MAX-1, ..., 1), and the oldest entry
(number 0) was the one evicted. -/
theorem c6_log_cap :
    (∀ (e : LogEntry) (rows : List LogRow),
      (loggerLog e rows).length ≤ MAX_LOG_ENTRIES) ∧
    (logMany ((List.range (MAX_LOG_ENTRIES + 1)).map numEntry) []).length =
      MAX_LOG_ENTRIES ∧
    logMany ((List.range (MAX_LOG_ENTRIES + 1)).map numEntry) [] =
      ((List.range MAX_LOG_ENTRIES).map (fun i => c6Row (i + 1))).reverse ∧
    c6Row 0 ∉ logMany ((List.range (MAX_LOG_ENTRIES + 1)).map numEntry) [] := by
  have hcap : ∀ (e : LogEntry) (rows : List LogRow),
      (loggerLog e rows).length ≤ MAX_LOG_ENTRIES := by
    intro e rows
    rw [loggerLog_eq_take, List.length_take]
    exact Nat.min_le_left _ _
  have hform : logMany ((List.range (MAX_LOG_ENTRIES + 1)).map numEntry) [] =
      ((List.range MAX_LOG_ENTRIES).map (fun i => c6Row (i + 1))).reverse := by
    rw [logMany_eq _ _ (by simp), List.append_nil, List.map_map]
    have hcomp : (logRowOf ∘ numEntry) = fun i => c6Row i := rfl
    rw [hcomp, List.range_succ_eq_map, List.map_cons, List.map_map,
      List.reverse_cons]
    have hlen2 :
        (((List.range MAX_LOG_ENTRIES).map
          ((fun i => c6Row i) ∘ Nat.succ)).reverse).length = MAX_LOG_ENTRIES := by
      simp
    rw [List.take_left' hlen2]
    rfl
  have hnm : c6Row 0 ∉
      ((List.range MAX_LOG_ENTRIES).map (fun i => c6Row (i + 1))).reverse := by
    rw [List.mem_reverse]
    intro hmem
    rw [List.mem_map] at hmem
    obtain ⟨i, _, heq⟩ := hmem
    have hid := congrArg LogRow.identifier heq
    rw [c6Row_identifier, c6Row_identifier] at hid
    have hlen := congrArg String.length hid
    rw [strLength_mk, strLength_mk, List.length_replicate,
      List.length_replicate] at hlen
    omega
  refine ⟨hcap, ?_, hform, hform ▸ hnm⟩
  rw [hform]
  simp

/-! ### C4: duplicate-identifier creation fails without mutation -/

theorem getProperty_eq_none_iff (st : Store) (k : String) :
    getProperty st k = none ↔ ∀ e ∈ st, e.1 ≠ k := by
  unfold getProperty
  rw [Option.map_eq_none', List.find?_eq_none]
  simp

theorem setProperty_of_absent (st : Store) (k : String) (v : Blob)
    (h : ∀ e ∈ st, e.1 ≠ k) :
    setProperty st k v = st ++ [(k, v)] := by
  unfold setProperty
  rw [if_neg]
  intro hany
  rw [List.any_eq_true] at hany
  obtain ⟨e, he, hp⟩ := hany
  exact h e he (by simpa using hp)

theorem getProperty_append_singleton (st : Store) (k : String) (v : Blob)
    (h : getProperty st k = none) :
    getProperty (st ++ [(k, v)]) k = some v := by
  unfold getProperty at h ⊢
  have hf : st.find? (fun e => e.1 = k) = none := by
    cases hc : st.find? (fun e => e.1 = k) with
    | none => rfl
    | some e => rw [hc] at h; simp at h
  rw [List.find?_append, hf]
  simp [List.find?]

/-- C4: `create` on an identifier that already has a record throws the
duplicate error and leaves the backing store exactly as it was (so the first
record's secret and usageCount are unchanged); a successful `create` appends
a record initialized with `usageCount = 0` and `lastUsed = null`. -/
theorem c4_create_duplicate_no_mutation :
    (∀ (st : Store) (id uuid nowIso : String), id ≠ "" →
      (getProperty st id).isSome →
      create st id uuid nowIso =
        (.err ("Identifier \x27" ++ id ++ "\x27 already exists"), st)) ∧
    (∀ (st : Store) (id uuid nowIso : String), id ≠ "" →
      getProperty st id = none →
      create st id uuid nowIso =
        (.ok uuid,
         st ++ [(id, Blob.json
           { apiKey := uuid, identifier := id, createdAt := nowIso
             lastUsed := none, usageCount := 0 })]) ∧
      getProperty (create st id uuid nowIso).2 id =
        some (Blob.json
          { apiKey := uuid, identifier := id, createdAt := nowIso
            lastUsed := none, usageCount := 0 })) := by
  constructor
  · intro st id uuid nowIso hid hsome
    obtain ⟨v, hv⟩ := Option.isSome_iff_exists.mp hsome
    simp [create, hid, hv]
  · intro st id uuid nowIso hid hnone
    have habs : ∀ e ∈ st, e.1 ≠ id := (getProperty_eq_none_iff st id).mp hnone
    have hcr : create st id uuid nowIso =
        (.ok uuid,
         st ++ [(id, Blob.json
           { apiKey := uuid, identifier := id, createdAt := nowIso
             lastUsed := none, usageCount := 0 })]) := by
      simp [create, hid, hnone, setProperty_of_absent st id _ habs]
    refine ⟨hcr, ?_⟩
    rw [hcr]
    exact getProperty_append_singleton st id _ hnone

/-- Witness for C4: creating "alice" twice fails on the second call and
leaves the store (hence the first record) unchanged. -/
theorem c4_create_duplicate_no_mutation_witness :
    (("alice" : String) ≠ "") ∧
    (getProperty (create [] "alice" "uuid-1" "t0").2 "alice").isSome = true ∧
    create ((create [] "alice" "uuid-1" "t0").2) "alice" "uuid-2" "t1" =
      (.err ("Identifier \x27" ++ "alice" ++ "\x27 already exists"),
       (create [] "alice" "uuid-1" "t0").2) := by
  refine ⟨by decide, by decide, ?_⟩
  exact c4_create_duplicate_no_mutation.1 _ "alice" "uuid-2" "t1"
    (by decide) (by decide)

/-! ### The validation scan (shared by C10 and C3) -/

theorem validateLoop_skip_cons (st : Store) (s k : String) (ks : List String)
    (hk : SkipKey st s k) :
    validateLoop st s (k :: ks) = validateLoop st s ks := by
  cases hg : getProperty st k with
  | none => simp only [validateLoop, hg]
  | some b =>
    cases b with
    | malformed => simp only [validateLoop, hg]
    | json d =>
      have hne : ¬ d.apiKey = s := hk d hg
      simp only [validateLoop, hg, if_neg hne]

theorem validateLoop_append_skip (st : Store) (s : String) (ks1 ks2 : List String)
    (h : ∀ k ∈ ks1, SkipKey st s k) :
    validateLoop st s (ks1 ++ ks2) = validateLoop st s ks2 := by
  induction ks1 with
  | nil => rfl
  | cons k ks ih =>
    rw [List.cons_append,
      validateLoop_skip_cons st s k _ (h k (List.mem_cons_self _ _))]
    exact ih fun k2 hk2 => h k2 (List.mem_cons_of_mem _ hk2)

theorem validateLoop_none (st : Store) (s : String) (ks : List String)
    (h : ∀ k ∈ ks, SkipKey st s k) :
    validateLoop st s ks = ⟨false, none⟩ := by
  have hx := validateLoop_append_skip st s ks [] h
  rwa [List.append_nil] at hx

theorem validate_found_at (pre post : Store) (k s : String) (d : KeyData)
    (hs : s ≠ "") (hk : k ∉ pre.map Prod.fst) (hd : d.apiKey = s)
    (hpre : ∀ e ∈ pre, ∀ d2 : KeyData, e.2 = Blob.json d2 → d2.apiKey ≠ s) :
    validate (pre ++ (k, Blob.json d) :: post) (.str s) =
      ⟨true, some d.identifier⟩ := by
  have hskip : ∀ k2 ∈ pre.map Prod.fst,
      SkipKey (pre ++ (k, Blob.json d) :: post) s k2 := by
    intro k2 hk2 d2 hg2
    unfold getProperty at hg2
    rw [List.find?_append] at hg2
    cases hfp : pre.find? (fun e => e.1 = k2) with
    | some e =>
      rw [hfp] at hg2
      have hg2e : e.2 = Blob.json d2 := by
        simpa using hg2
      exact hpre e (List.mem_of_find?_eq_some hfp) d2 hg2e
    | none =>
      exfalso
      rw [List.find?_eq_none] at hfp
      obtain ⟨e, he, hek⟩ := List.mem_map.mp hk2
      exact hfp e he (by simpa using hek)
  have hget : getProperty (pre ++ (k, Blob.json d) :: post) k =
      some (Blob.json d) := by
    unfold getProperty
    rw [List.find?_append]
    have hfp : pre.find? (fun e => e.1 = k) = none := by
      rw [List.find?_eq_none]
      intro e he hpk
      exact hk (List.mem_map.mpr ⟨e, he, by simpa using hpk⟩)
    rw [hfp]
    simp [List.find?]
  have hkeys : getKeys (pre ++ (k, Blob.json d) :: post) =
      pre.map Prod.fst ++ k :: post.map Prod.fst := by
    simp [getKeys]
  have hv : validate (pre ++ (k, Blob.json d) :: post) (.str s) =
      validateLoop (pre ++ (k, Blob.json d) :: post) s
        (getKeys (pre ++ (k, Blob.json d) :: post)) := by
    simp [validate, hs]
  rw [hv, hkeys, validateLoop_append_skip _ _ _ _ hskip]
  simp [validateLoop, hget, hd]

/-! ### C10: validate over a corrupted backing store -/

/-- C10: `validate` is total over a corrupted store — every record that
fails to parse (and every parseable record with a different secret) ahead of
a well-formed matching record is skipped, and the matching record's
identifier is still returned as valid. -/
theorem c10_validate_skips_corrupt (pre post : Store) (k s : String)
    (d : KeyData) (hs : s ≠ "") (hd : d.apiKey = s)
    (hk : k ∉ pre.map Prod.fst)
    (hpre : ∀ e ∈ pre, e.2 = Blob.malformed ∨
      ∃ d2 : KeyData, e.2 = Blob.json d2 ∧ d2.apiKey ≠ s) :
    validate (pre ++ (k, Blob.json d) :: post) (.str s) =
      ⟨true, some d.identifier⟩ := by
  apply validate_found_at pre post k s d hs hk hd
  intro e he d2 he2
  rcases hpre e he with hm | ⟨d3, he3, hne⟩
  · rw [hm] at he2
    exact absurd he2 (by simp)
  · rw [he3] at he2
    injection he2 with h4
    rwa [← h4]

/-- Witness for C10: a malformed record ahead of a good one is skipped and
the good record's secret still validates. -/
theorem c10_validate_skips_corrupt_witness :
    (("sec1" : String) ≠ "") ∧
    validate [("bad", Blob.malformed),
              ("alice", Blob.json ⟨"sec1", "alice", "t0", none, 0⟩)]
      (.str "sec1") = ⟨true, some "alice"⟩ := by
  refine ⟨by decide, ?_⟩
  have h := c10_validate_skips_corrupt [("bad", Blob.malformed)] []
    "alice" "sec1" ⟨"sec1", "alice", "t0", none, 0⟩ (by decide) rfl
    (by decide)
    (by intro e he
        rw [List.mem_singleton] at he
        subst he
        exact Or.inl rfl)
  simpa using h

/-! ### C3: validate over a store built by create -/

theorem storeWF_nil : StoreWF [] := by
  refine ⟨by simp, by simp, ?_⟩
  simp [secretsOf]

theorem secretsOf_append (st1 st2 : Store) :
    secretsOf (st1 ++ st2) = secretsOf st1 ++ secretsOf st2 :=
  List.filterMap_append st1 st2 _

theorem mem_secretsOf (st : Store) (e : String × Blob) (d : KeyData)
    (he : e ∈ st) (hd : e.2 = Blob.json d) : d.apiKey ∈ secretsOf st := by
  unfold secretsOf
  rw [List.mem_filterMap]
  exact ⟨e, he, by rw [hd]⟩

theorem createdFrom_invariant (ops : List (String × String)) :
    ∀ st : Store, StoreWF st →
      (∀ p ∈ ops, p.2 ≠ "") →
      (ops.map Prod.snd).Nodup →
      (∀ p ∈ ops, p.2 ∉ secretsOf st) →
      StoreWF (ops.foldl (fun st p => (create st p.1 p.2 "t0").2) st) ∧
      (∀ x ∈ secretsOf (ops.foldl (fun st p => (create st p.1 p.2 "t0").2) st),
        x ∈ secretsOf st ∨ x ∈ ops.map Prod.snd) := by
  induction ops with
  | nil =>
    intro st hwf _ _ _
    exact ⟨hwf, fun x hx => Or.inl hx⟩
  | cons p ops ih =>
    intro st hwf hne hnd hnotin
    rw [List.foldl_cons]
    have hne2 : ∀ p2 ∈ ops, p2.2 ≠ "" :=
      fun p2 hp2 => hne p2 (List.mem_cons_of_mem _ hp2)
    have hnd2 : (ops.map Prod.snd).Nodup := by
      rw [List.map_cons] at hnd
      exact (List.nodup_cons.mp hnd).2
    have hp_not_ops : p.2 ∉ ops.map Prod.snd := by
      rw [List.map_cons] at hnd
      exact (List.nodup_cons.mp hnd).1
    by_cases hid : p.1 = ""
    · have hstep : (create st p.1 p.2 "t0").2 = st := by simp [create, hid]
      rw [hstep]
      have hres := ih st hwf hne2 hnd2
        (fun p2 hp2 => hnotin p2 (List.mem_cons_of_mem _ hp2))
      refine ⟨hres.1, fun x hx => ?_⟩
      rcases hres.2 x hx with h1 | h2
      · exact Or.inl h1
      · exact Or.inr (by rw [List.map_cons]; exact List.mem_cons_of_mem _ h2)
    · cases hg : getProperty st p.1 with
      | some v =>
        have hstep : (create st p.1 p.2 "t0").2 = st := by simp [create, hid, hg]
        rw [hstep]
        have hres := ih st hwf hne2 hnd2
          (fun p2 hp2 => hnotin p2 (List.mem_cons_of_mem _ hp2))
        refine ⟨hres.1, fun x hx => ?_⟩
        rcases hres.2 x hx with h1 | h2
        · exact Or.inl h1
        · exact Or.inr (by rw [List.map_cons]; exact List.mem_cons_of_mem _ h2)
      | none =>
        have habs : ∀ e ∈ st, e.1 ≠ p.1 := (getProperty_eq_none_iff st p.1).mp hg
        have hstep : (create st p.1 p.2 "t0").2 =
            st ++ [(p.1, Blob.json ⟨p.2, p.1, "t0", none, 0⟩)] := by
          simp [create, hid, hg, setProperty_of_absent st p.1 _ habs]
        rw [hstep]
        obtain ⟨hkeys, hshape, hsec⟩ := hwf
        have hsecnew :
            secretsOf (st ++ [(p.1, Blob.json ⟨p.2, p.1, "t0", none, 0⟩)]) =
              secretsOf st ++ [p.2] := by
          rw [secretsOf_append]
          rfl
        have hwf2 : StoreWF (st ++ [(p.1, Blob.json ⟨p.2, p.1, "t0", none, 0⟩)]) := by
          refine ⟨?_, ?_, ?_⟩
          · rw [List.map_append, List.nodup_append]
            refine ⟨hkeys, by simp, ?_⟩
            intro a ha hb
            simp only [List.map_cons, List.map_nil, List.mem_singleton] at hb
            subst hb
            obtain ⟨e, he, hek⟩ := List.mem_map.mp ha
            exact habs e he hek
          · intro e he
            rcases List.mem_append.mp he with h1 | h2
            · exact hshape e h1
            · rw [List.mem_singleton] at h2
              subst h2
              exact ⟨⟨p.2, p.1, "t0", none, 0⟩, rfl, rfl,
                hne p (List.mem_cons_self _ _)⟩
          · rw [hsecnew, List.nodup_append]
            refine ⟨hsec, List.nodup_singleton _, ?_⟩
            intro a ha hb
            rw [List.mem_singleton] at hb
            subst hb
            exact hnotin p (List.mem_cons_self _ _) ha
        have hops2 : ∀ p2 ∈ ops,
            p2.2 ∉ secretsOf (st ++ [(p.1, Blob.json ⟨p.2, p.1, "t0", none, 0⟩)]) := by
          intro p2 hp2 hmem
          rw [hsecnew] at hmem
          rcases List.mem_append.mp hmem with h1 | h2
          · exact hnotin p2 (List.mem_cons_of_mem _ hp2) h1
          · rw [List.mem_singleton] at h2
            exact hp_not_ops (h2 ▸ List.mem_map.mpr ⟨p2, hp2, rfl⟩)
        have hres := ih _ hwf2 hne2 hnd2 hops2
        refine ⟨hres.1, fun x hx => ?_⟩
        rcases hres.2 x hx with h1 | h2
        · rw [hsecnew] at h1
          rcases List.mem_append.mp h1 with ha | hb
          · exact Or.inl ha
          · rw [List.mem_singleton] at hb
            subst hb
            exact Or.inr (by rw [List.map_cons]; exact List.mem_cons_self _ _)
        · exact Or.inr (by rw [List.map_cons]; exact List.mem_cons_of_mem _ h2)

theorem createdFrom_WF (ops : List (String × String)) (h : GoodOps ops) :
    StoreWF (createdFrom ops) := by
  have hres := createdFrom_invariant ops [] storeWF_nil h.1 h.2
    (by intro p hp hmem; simp [secretsOf] at hmem)
  exact hres.1

theorem validate_WF_found (st : Store) (hwf : StoreWF st) (id : String)
    (kd : KeyData) (hmem : (id, Blob.json kd) ∈ st) :
    validate st (.str kd.apiKey) = ⟨true, some id⟩ := by
  obtain ⟨hkeys, hshape, hsec⟩ := hwf
  obtain ⟨d, hjson, hDid, hDne⟩ := hshape (id, Blob.json kd) hmem
  have hdk : kd = d := by
    injection hjson
  subst hdk
  obtain ⟨pre, post, hsplit⟩ := List.append_of_mem hmem
  subst hsplit
  have hkeysplit : (pre ++ (id, Blob.json kd) :: post).map Prod.fst =
      pre.map Prod.fst ++ id :: post.map Prod.fst := by simp
  rw [hkeysplit, List.nodup_middle] at hkeys
  have hid_notin : id ∉ pre.map Prod.fst := by
    intro hmem2
    exact (List.nodup_cons.mp hkeys).1 (List.mem_append.mpr (Or.inl hmem2))
  have hsecsplit : secretsOf (pre ++ (id, Blob.json kd) :: post) =
      secretsOf pre ++ kd.apiKey :: secretsOf post := by
    rw [secretsOf_append]
    rfl
  rw [hsecsplit, List.nodup_middle] at hsec
  have hsk_notin : kd.apiKey ∉ secretsOf pre := by
    intro hmem2
    exact (List.nodup_cons.mp hsec).1 (List.mem_append.mpr (Or.inl hmem2))
  have hpre : ∀ e ∈ pre, ∀ d2 : KeyData,
      e.2 = Blob.json d2 → d2.apiKey ≠ kd.apiKey := by
    intro e he d2 he2 heq
    exact hsk_notin (heq ▸ mem_secretsOf pre e d2 he he2)
  have hfound := validate_found_at pre post id kd.apiKey kd hDne hid_notin rfl hpre
  rw [hfound, hDid]

theorem validate_no_match (st : Store) (s : String)
    (h : ∀ (k : String) (kd : KeyData), (k, Blob.json kd) ∈ st → kd.apiKey ≠ s) :
    validate st (.str s) = ⟨false, none⟩ := by
  by_cases hs : s = ""
  · simp [validate, hs]
  · have hv : validate st (.str s) = validateLoop st s (getKeys st) := by
      simp [validate, hs]
    rw [hv]
    apply validateLoop_none
    intro k _ d2 hg
    unfold getProperty at hg
    cases hf : st.find? (fun e => e.1 = k) with
    | none => rw [hf] at hg; simp at hg
    | some e =>
      rw [hf] at hg
      have hg2 : e.2 = Blob.json d2 := by simpa using hg
      have he := List.mem_of_find?_eq_some hf
      have hek : e.1 = k := by
        have := List.find?_some hf
        simpa using this
      have hmem : (k, Blob.json d2) ∈ st := by
        have hpair : e = (k, Blob.json d2) := Prod.ext hek hg2
        exact hpair ▸ he
      exact h k d2 hmem

/-- C3: over any store reachable by a batch of `create` calls with fresh
uuids, `validate` of a stored record's secret returns `{valid: true,
identifier: id}` for that record's identifier, while an empty string, a
non-string value, or a string matching no stored secret yields
`{valid: false, identifier: null}`. -/
theorem c3_validate_roundtrip (ops : List (String × String)) (st : Store)
    (hst : st = createdFrom ops) (hops : GoodOps ops) :
    (∀ (id : String) (kd : KeyData), (id, Blob.json kd) ∈ st →
      validate st (.str kd.apiKey) = ⟨true, some id⟩) ∧
    validate st (.str "") = ⟨false, none⟩ ∧
    validate st .notStr = ⟨false, none⟩ ∧
    (∀ s : String,
      (∀ (k : String) (kd : KeyData), (k, Blob.json kd) ∈ st → kd.apiKey ≠ s) →
      validate st (.str s) = ⟨false, none⟩) := by
  have hwf : StoreWF st := by
    rw [hst]
    exact createdFrom_WF ops hops
  refine ⟨fun id kd hmem => validate_WF_found st hwf id kd hmem, ?_, rfl,
    fun s hnm => validate_no_match st s hnm⟩
  simp [validate]

/-- Witness for C3 over a two-record created store. -/
theorem c3_validate_roundtrip_witness :
    GoodOps [("alice", "sec1"), ("bob", "sec2")] ∧
    validate (createdFrom [("alice", "sec1"), ("bob", "sec2")]) (.str "sec1") =
      ⟨true, some "alice"⟩ ∧
    validate (createdFrom [("alice", "sec1"), ("bob", "sec2")]) (.str "nope") =
      ⟨false, none⟩ := by
  have hops : GoodOps [("alice", "sec1"), ("bob", "sec2")] := ⟨by decide, by decide⟩
  have hc := c3_validate_roundtrip [("alice", "sec1"), ("bob", "sec2")] _ rfl hops
  refine ⟨hops, ?_, ?_⟩
  · have hm := hc.1 "alice" ⟨"sec1", "alice", "t0", none, 0⟩ (by decide)
    simpa using hm
  · apply hc.2.2.2 "nope"
    intro k kd hmem
    have hst : createdFrom [("alice", "sec1"), ("bob", "sec2")] =
        [("alice", Blob.json ⟨"sec1", "alice", "t0", none, 0⟩),
         ("bob", Blob.json ⟨"sec2", "bob", "t0", none, 0⟩)] := by decide
    rw [hst] at hmem
    simp only [List.mem_cons, List.mem_singleton, List.not_mem_nil,
      or_false, Prod.mk.injEq, Blob.json.injEq] at hmem
    rcases hmem with ⟨_, hkd⟩ | ⟨_, hkd⟩ <;> rw [hkd] <;> decide

end GasExec
